import Mathlib

/-
Verification development for the MBTA reliability pipeline.

The definitions below are shallow embeddings of the Python sources:
  class_schedules.py                (schedule catalog and window counting)
  src/models/feature_engineering.py (temporal feature builder)
  src/models/model.py               (feature creation and training split / binning)

Conventions used throughout:
  - pandas NaN cells are modelled as `none` in `Option Rat`;
  - a pandas DataFrame is modelled column-oriented, as an association list
    from column name to a list of cells;
  - machine floats are modelled as exact rationals; the float-specific
    truncation `int(n * 0.8)` is modelled as `n * 4 / 5` in natural division,
    which agrees with the float computation for all realistic row counts;
  - python references to DataFrames are modelled by an explicit heap
    (a list of tables) so that the copy-on-entry discipline of the sources
    can be stated and proved.
-/

namespace MBTA

/-! ## Schedule catalog, from class_schedules.py -/

/-- One entry of the fixed weekly class-meeting catalog.  Field `days` holds
the weekday letters of the pattern, `start` and `stop` the clock times as
(hour, minute) pairs; `start` is compared exactly by the lookup functions. -/
structure ClassPattern where
  days : List Char
  start : Nat × Nat
  stop : Nat × Nat
  duration_min : Nat
  ptype : String
deriving DecidableEq

/-- The full fixed catalog STANDARD_PATTERNS from class_schedules.py. -/
def STANDARD_PATTERNS : List ClassPattern := [
  -- Type A - 50 minute classes
  ⟨[ 'M', 'W', 'F'], (9, 5), (9, 55), 50, "A"⟩,
  ⟨[ 'M', 'W', 'F'], (10, 10), (11, 0), 50, "A"⟩,
  ⟨[ 'M', 'W', 'F'], (12, 20), (13, 10), 50, "A"⟩,
  ⟨[ 'M', 'W', 'F'], (13, 25), (14, 15), 50, "A"⟩,
  ⟨[ 'M', 'W', 'F'], (14, 30), (15, 20), 50, "A"⟩,
  ⟨[ 'M', 'W', 'F'], (16, 40), (17, 30), 50, "A"⟩,
  -- Type B - 2:45 classes
  ⟨[ 'M', 'T', 'W', 'R', 'F'], (8, 0), (10, 45), 165, "B"⟩,
  ⟨[ 'F'], (11, 15), (14, 0), 165, "B"⟩,
  ⟨[ 'T', 'R'], (12, 30), (15, 15), 165, "B"⟩,
  ⟨[ 'M', 'W', 'F'], (14, 30), (17, 15), 165, "B"⟩,
  ⟨[ 'T', 'R'], (15, 30), (18, 15), 165, "B"⟩,
  ⟨[ 'M', 'T', 'W', 'R', 'F'], (18, 30), (21, 15), 165, "B"⟩,
  -- Type C - 1:15 classes
  ⟨[ 'T', 'R'], (8, 0), (9, 15), 75, "C"⟩,
  ⟨[ 'T', 'R'], (9, 30), (10, 45), 75, "C"⟩,
  ⟨[ 'T', 'R'], (11, 0), (12, 15), 75, "C"⟩,
  ⟨[ 'T', 'R'], (12, 30), (13, 45), 75, "C"⟩,
  ⟨[ 'T', 'R'], (14, 0), (15, 15), 75, "C"⟩,
  ⟨[ 'T', 'R'], (15, 30), (16, 45), 75, "C"⟩,
  ⟨[ 'T', 'R'], (17, 0), (18, 15), 75, "C"⟩,
  -- Type D - 1:45 classes
  ⟨[ 'M', 'W', 'F'], (8, 0), (9, 45), 105, "D"⟩,
  ⟨[ 'M', 'W', 'F'], (10, 10), (11, 55), 105, "D"⟩,
  ⟨[ 'M', 'W', 'F'], (12, 20), (14, 5), 105, "D"⟩,
  ⟨[ 'M', 'W', 'F'], (14, 30), (16, 15), 105, "D"⟩,
  ⟨[ 'M', 'W', 'F'], (16, 30), (18, 15), 105, "D"⟩,
  ⟨[ 'T', 'R'], (9, 0), (10, 45), 105, "D"⟩,
  ⟨[ 'T', 'R'], (13, 30), (15, 15), 105, "D"⟩,
  ⟨[ 'T', 'R'], (15, 30), (17, 15), 105, "D"⟩,
  -- Type E - 50 minute classes (daily)
  ⟨[ 'M', 'T', 'W', 'R', 'F'], (8, 0), (8, 50), 50, "E"⟩,
  ⟨[ 'M', 'T', 'W', 'R', 'F'], (11, 15), (12, 5), 50, "E"⟩,
  ⟨[ 'M', 'T', 'W', 'R', 'F'], (15, 35), (16, 25), 50, "E"⟩
]

/-- The day_map dictionary of get_class_starts_at_time: weekday index to
letter; weekend indices are absent. -/
def dayLetter (day_of_week : Nat) : Option Char :=
  match day_of_week with
  | 0 => some 'M'
  | 1 => some 'T'
  | 2 => some 'W'
  | 3 => some 'R'
  | 4 => some 'F'
  | _ => none

/-- get_class_starts_at_time from class_schedules.py: the number of catalog
entries whose day letters contain the weekday letter and whose start time is
exactly (hour, minute).  Weekend weekdays yield 0 because day_map has no
entry for them. -/
def get_class_starts_at_time (hour minute day_of_week : Nat) : Nat :=
  match dayLetter day_of_week with
  | none => 0
  | some c =>
      STANDARD_PATTERNS.countP
        (fun p => p.days.contains c && p.start.1 == hour && p.start.2 == minute)

/-- The inner while loop of get_class_starts_in_window: starting at minute
cur, accumulate get_class_starts_at_time for `fuel` consecutive minutes.
The python loop runs while current_minute < end_m, so its iteration count is
end_m - current_minute, which the callers pass as the fuel. -/
def scanMinutesF (day_of_week hour : Nat) : Nat → Nat → Nat
  | 0, _ => 0
  | fuel + 1, cur =>
      get_class_starts_at_time hour cur day_of_week + scanMinutesF day_of_week hour fuel (cur + 1)

/-- The outer for loop of get_class_starts_in_window: iterate the hour h for
`fuel` steps (python: for h in range(start_hour, end_hour + 1)).  In each
hour the minute scan runs up to end_minute when h equals end_hour and up to
60 otherwise; after the first hour the current minute resets to 0. -/
def hourLoopF (day_of_week end_minute end_hour : Nat) : Nat → Nat → Nat → Nat
  | 0, _, _ => 0
  | fuel + 1, h, cur =>
      let endM := if h == end_hour then end_minute else 60
      scanMinutesF day_of_week h (endM - cur) cur
        + hourLoopF day_of_week end_minute end_hour fuel (h + 1) 0

/-- get_class_starts_in_window from class_schedules.py, translated with the
loop structure of the source (hour loop with a threaded current minute). -/
def get_class_starts_in_window
    (start_hour start_minute end_hour end_minute day_of_week : Nat) : Nat :=
  hourLoopF day_of_week end_minute end_hour
    (end_hour + 1 - start_hour) start_hour start_minute

/-- The brute-force specification of a window count: the sum of
get_class_starts_at_time over every absolute minute t in the half-open
interval [60 h1 + m1, 60 h2 + m2). -/
def windowSumSpec (start_hour start_minute end_hour end_minute day_of_week : Nat) : Nat :=
  ∑ t ∈ Finset.Ico (60 * start_hour + start_minute) (60 * end_hour + end_minute),
    get_class_starts_at_time (t / 60) (t % 60) day_of_week

lemma scanMinutesF_eq_sum (d h : Nat) :
    ∀ fuel cur, scanMinutesF d h fuel cur
      = ∑ m ∈ Finset.Ico cur (cur + fuel), get_class_starts_at_time h m d := by
  intro fuel
  induction fuel with
  | zero => intro cur; simp [scanMinutesF]
  | succ n ih =>
      intro cur
      rw [scanMinutesF, ih (cur + 1)]
      rw [show cur + (n + 1) = cur + 1 + n from by omega]
      rw [Finset.sum_eq_sum_Ico_succ_bot (a := cur) (b := cur + 1 + n)
        (by omega) (fun m => get_class_starts_at_time h m d)]

lemma sum_minutes_shift (d h a b : Nat) (hb : b ≤ 60) :
    ∑ m ∈ Finset.Ico a b, get_class_starts_at_time h m d
      = ∑ t ∈ Finset.Ico (60 * h + a) (60 * h + b),
          get_class_starts_at_time (t / 60) (t % 60) d := by
  rw [show 60 * h + a = a + 60 * h by omega, show 60 * h + b = b + 60 * h by omega]
  rw [← Finset.sum_Ico_add (fun t => get_class_starts_at_time (t / 60) (t % 60) d) a b (60 * h)]
  apply Finset.sum_congr rfl
  intro m hm
  simp only [Finset.mem_Ico] at hm
  have h1 : (60 * h + m) / 60 = h := by omega
  have h2 : (60 * h + m) % 60 = m := by omega
  rw [h1, h2]

lemma hourLoopF_eq_sum (d m2 h2 : Nat) (hm2 : m2 ≤ 60) :
    ∀ fuel h cur, h2 + 1 = h + fuel → cur ≤ 60 → (h = h2 → cur ≤ m2) →
      hourLoopF d m2 h2 fuel h cur
        = ∑ t ∈ Finset.Ico (60 * h + cur) (60 * h2 + m2),
            get_class_starts_at_time (t / 60) (t % 60) d := by
  intro fuel
  induction fuel with
  | zero =>
      intro h cur hf _ _
      have : 60 * h2 + m2 ≤ 60 * h + cur := by omega
      rw [hourLoopF, Finset.Ico_eq_empty (by omega), Finset.sum_empty]
  | succ n ih =>
      intro h cur hf hcur hlast
      rw [hourLoopF]
      by_cases hh : h = h2
      · subst hh
        have hn : n = 0 := by omega
        subst hn
        simp only [beq_self_eq_true, if_true]
        rw [hourLoopF, scanMinutesF_eq_sum]
        have hcm : cur ≤ m2 := hlast rfl
        rw [show cur + (m2 - cur) = m2 by omega]
        rw [sum_minutes_shift d h cur m2 hm2]
        omega
      · have hlt : h < h2 := by omega
        simp only [beq_iff_eq, hh, if_false]
        rw [scanMinutesF_eq_sum, show cur + (60 - cur) = 60 by omega]
        rw [sum_minutes_shift d h cur 60 (le_refl 60)]
        rw [ih (h + 1) 0 (by omega) (by omega) (by omega)]
        rw [show 60 * (h + 1) + 0 = 60 * h + 60 by omega]
        exact Finset.sum_Ico_consecutive _ (by omega) (by omega)

/-- C5: for every weekday index d and every window whose start time is
strictly before its end time (minutes in range), the loop-based
get_class_starts_in_window equals the brute-force sum of
get_class_starts_at_time over every discrete minute of the half-open
window. -/
theorem window_count_eq_minute_sum
    (d h1 m1 h2 m2 : Nat) (hm1 : m1 < 60) (hm2 : m2 ≤ 60)
    (hlt : 60 * h1 + m1 < 60 * h2 + m2) :
    get_class_starts_in_window h1 m1 h2 m2 d = windowSumSpec h1 m1 h2 m2 d := by
  have hh : h1 ≤ h2 := by omega
  unfold get_class_starts_in_window windowSumSpec
  exact hourLoopF_eq_sum d m2 h2 hm2 (h2 + 1 - h1) h1 m1 (by omega) (by omega) (by omega)

/-- Witness for C5: the Tuesday 08:00 to 10:30 window, evaluated concretely
on both sides of the theorem. -/
theorem window_count_eq_minute_sum_witness :
    (0 : Nat) < 60 ∧ (30 : Nat) ≤ 60 ∧ 60 * 8 + 0 < 60 * 10 + 30 ∧
      get_class_starts_in_window 8 0 10 30 1 = windowSumSpec 8 0 10 30 1 :=
  ⟨by decide, by decide, by decide,
    window_count_eq_minute_sum 1 8 0 10 30 (by decide) (by decide) (by decide)⟩

/-- The entries counted by the Tuesday 08:00 to 09:00 window according to the
catalog itself: day letters contain T and the start time lies in the
half-open interval [08:00, 09:00). -/
def tuesdayEightToNineEntries : List ClassPattern :=
  STANDARD_PATTERNS.filter
    (fun p => p.days.contains 'T' &&
      decide (60 * 8 ≤ 60 * p.start.1 + p.start.2) &&
      decide (60 * p.start.1 + p.start.2 < 60 * 9))

/-- C6 counterexample: the Tuesday window 08:00 to 09:00 query returns 3 on
the fixed catalog, not 2 as claimed; the type-E MTWRF 08:00 pattern also
matches in addition to the type-B MTWRF 08:00 and type-C TR 08:00 patterns. -/
theorem tuesday_morning_window_ne_two :
    get_class_starts_in_window 8 0 9 0 1 = 3 ∧ get_class_starts_in_window 8 0 9 0 1 ≠ 2 := by
  constructor
  · decide
  · decide

/-- C6 (amended): on the fixed catalog the Tuesday window 08:00 to 09:00
query counts exactly the entries whose day letters contain T and whose start
time lies in [08:00, 09:00), and this count equals 3: the type-B MTWRF 08:00
pattern, the type-C TR 08:00 pattern, and the type-E MTWRF 08:00 pattern. -/
theorem tuesday_morning_window_count :
    get_class_starts_in_window 8 0 9 0 1 = tuesdayEightToNineEntries.length ∧
      get_class_starts_in_window 8 0 9 0 1 = 3 ∧
      tuesdayEightToNineEntries =
        [⟨[ 'M', 'T', 'W', 'R', 'F'], (8, 0), (10, 45), 165, "B"⟩,
         ⟨[ 'T', 'R'], (8, 0), (9, 15), 75, "C"⟩,
         ⟨[ 'M', 'T', 'W', 'R', 'F'], (8, 0), (8, 50), 50, "E"⟩] := by
  refine ⟨by decide, by decide, by decide⟩

/-! ## Column primitives: the pandas Series operations used by the
feature builder, on columns of Option Rat cells (none is NaN). -/

/-- Series.shift(lag): the first min(lag, n) cells become NaN and the
remaining cells are the source cells moved down by lag positions. -/
def shiftO (lag : Nat) (c : List (Option Rat)) : List (Option Rat) :=
  List.replicate (min lag c.length) none ++ c.take (c.length - lag)

/-- The trailing window of width w at the end of a list: its last
min(w, length) entries. -/
def tailWin (w : Nat) (l : List (Option Rat)) : List (Option Rat) :=
  l.drop (l.length - w)

/-- One pass of a trailing rolling aggregation: the buffer holds the
trailing window of the cells consumed so far; each new cell extends the
buffer, the buffer is clipped to the window width, and the aggregator is
applied to it. -/
def rollingGo (agg : List (Option Rat) → Option Rat) (w : Nat) :
    List (Option Rat) → List (Option Rat) → List (Option Rat)
  | _, [] => []
  | buf, x :: rest =>
      let buf2 := tailWin w (buf ++ [x])
      agg buf2 :: rollingGo agg w buf2 rest

/-- Series.rolling(window=w, min_periods=1).agg run from an empty buffer. -/
def rollingApply (agg : List (Option Rat) → Option Rat) (w : Nat)
    (c : List (Option Rat)) : List (Option Rat) :=
  rollingGo agg w [] c

/-- np.mean on an exact list of rationals (sum divided by length). -/
def listMean (l : List Rat) : Rat := l.sum / l.length

/-- Sample variance with ddof 1, the quantity whose square root pandas
rolling std reports: sum of squared deviations divided by (count - 1). -/
def sampleVar (l : List Rat) : Rat :=
  ((l.map (fun v => (v - listMean l) ^ 2)).sum) / ((l.length - 1 : Nat) : Rat)

/-- Aggregator of Series.rolling(w, min_periods=1).mean(): the mean of the
non-NaN cells of the trailing window, NaN when no such cell exists. -/
def aggMean (cells : List (Option Rat)) : Option Rat :=
  let vals := cells.filterMap id
  if 1 ≤ vals.length then some (listMean vals) else none

/-- Aggregator of Series.rolling(w, min_periods=1).std(): NaN when the
window holds fewer than two non-NaN cells (a ddof 1 standard deviation of a
single observation divides by zero), otherwise the sample variance of the
window.  The pandas column holds the square root of this value; since that
root is irrational in general, the embedding tracks its exact square. -/
def aggVarS (cells : List (Option Rat)) : Option Rat :=
  let vals := cells.filterMap id
  if 2 ≤ vals.length then some (sampleVar vals) else none

/-- Series.rolling(window=w, min_periods=1).mean() as used for the
rolling-average feature columns. -/
def rollingMeanO (w : Nat) (c : List (Option Rat)) : List (Option Rat) :=
  rollingApply aggMean w c

/-- Series.rolling(window=w, min_periods=1).std() as used for the rolling
standard-deviation feature columns, tracked as the squared value. -/
def rollingStdSqO (w : Nat) (c : List (Option Rat)) : List (Option Rat) :=
  rollingApply aggVarS w c

/-- The window slice named by the claims: source rows max(0, i-w+1) .. i. -/
def winSlice (w i : Nat) (xs : List Rat) : List Rat :=
  (xs.take (i + 1)).drop (i + 1 - w)

lemma tailWin_append (w : Nat) (l m : List (Option Rat)) :
    tailWin w (tailWin w l ++ m) = tailWin w (l ++ m) := by
  by_cases hw : l.length ≤ w
  · have h0 : l.length - w = 0 := by omega
    simp [tailWin, h0]
  · have hwlt : w < l.length := by omega
    have hlen : (List.drop (l.length - w) l).length = w := by
      rw [List.length_drop]; omega
    unfold tailWin
    rw [List.length_append, List.length_append, hlen]
    rw [List.drop_append_eq_append_drop, List.drop_append_eq_append_drop]
    rw [List.drop_drop, hlen]
    congr 1
    · congr 1
      omega
    · congr 1
      omega

lemma rollingGo_getElem? (agg : List (Option Rat) → Option Rat) (w : Nat) :
    ∀ (xs buf : List (Option Rat)) (j : Nat), j < xs.length →
      (rollingGo agg w buf xs)[j]? = some (agg (tailWin w (buf ++ xs.take (j + 1)))) := by
  intro xs
  induction xs with
  | nil => intro buf j h; simp at h
  | cons x rest ih =>
      intro buf j hj
      cases j with
      | zero => simp [rollingGo]
      | succ k =>
          have hk : k < rest.length := by
            simpa using hj
          rw [rollingGo]
          simp only [List.getElem?_cons_succ]
          rw [ih (tailWin w (buf ++ [x])) k hk]
          rw [tailWin_append, List.append_assoc]
          simp [List.take_succ_cons]

lemma rollingApply_getElem? (agg : List (Option Rat) → Option Rat) (w : Nat)
    (xs : List (Option Rat)) (j : Nat) (hj : j < xs.length) :
    (rollingApply agg w xs)[j]? = some (agg (tailWin w (xs.take (j + 1)))) := by
  rw [rollingApply, rollingGo_getElem? agg w xs [] j hj, List.nil_append]

lemma tailWin_map_some (w i : Nat) (xs : List Rat) (hi : i < xs.length) :
    tailWin w ((xs.map some).take (i + 1)) = (winSlice w i xs).map some := by
  unfold tailWin winSlice
  rw [← List.map_take, ← List.map_drop]
  congr 1
  rw [List.length_map, List.length_take]
  congr 1
  omega

lemma filterMap_id_map_some (l : List Rat) :
    (l.map some).filterMap id = l := by
  rw [List.filterMap_map]
  exact List.filterMap_some l

lemma winSlice_length (w i : Nat) (xs : List Rat) (hi : i < xs.length) :
    (winSlice w i xs).length = min w (i + 1) := by
  unfold winSlice
  rw [List.length_drop, List.length_take]
  omega

/-- C3: for every source column and every lag offset, the shifted (lagged)
column agrees with the source column lag rows earlier at every row index
i ≥ lag, and is missing (NaN) at every row index i < lag. -/
theorem lag_feature_values (xs : List Rat) (lag i : Nat) (hi : i < xs.length) :
    (lag ≤ i → (shiftO lag (xs.map some)).getD i none = some (xs.getD (i - lag) 0)) ∧
    (i < lag → (shiftO lag (xs.map some)).getD i none = none) := by
  have hlenm : (xs.map some).length = xs.length := List.length_map _ _
  constructor
  · intro hle
    have hl : min lag (xs.map some).length = lag := by
      rw [hlenm]; omega
    rw [List.getD_eq_getElem?_getD, shiftO, List.getElem?_append]
    rw [List.length_replicate, hl]
    rw [if_neg (by omega)]
    rw [List.getElem?_take, hlenm]
    rw [if_pos (by omega)]
    rw [List.getElem?_map]
    rw [List.getElem?_eq_getElem (by omega : i - lag < xs.length)]
    rw [List.getD_eq_getElem?_getD, List.getElem?_eq_getElem (by omega : i - lag < xs.length)]
    rfl
  · intro hltg
    have hl : i < min lag (xs.map some).length := by
      rw [hlenm]; omega
    rw [List.getD_eq_getElem?_getD, shiftO, List.getElem?_append]
    rw [List.length_replicate, if_pos hl, List.getElem?_replicate, if_pos hl]
    rfl

/-- C4: for every source column, every window width w ≥ 1 and every row i,
the trailing rolling mean at row i is the arithmetic mean of the source
cells over rows max(0, i-w+1) .. i; in particular at the first row it is
that row value itself. -/
theorem rolling_mean_feature (xs : List Rat) (w i : Nat) (hw : 1 ≤ w) (hi : i < xs.length) :
    (rollingMeanO w (xs.map some)).getD i none = some (listMean (winSlice w i xs)) ∧
    (rollingMeanO w (xs.map some)).getD 0 none = some (xs.getD 0 0) := by
  have h0 : 0 < xs.length := by omega
  have hmain : ∀ j, j < xs.length →
      (rollingMeanO w (xs.map some)).getD j none = some (listMean (winSlice w j xs)) := by
    intro j hj
    rw [List.getD_eq_getElem?_getD, rollingMeanO,
      rollingApply_getElem? aggMean w (xs.map some) j (by rw [List.length_map]; omega)]
    rw [tailWin_map_some w j xs hj]
    rw [aggMean, filterMap_id_map_some]
    rw [if_pos (by rw [winSlice_length w j xs hj]; omega)]
    rfl
  refine ⟨hmain i hi, ?_⟩
  rw [hmain 0 h0]
  have hs : winSlice w 0 xs = [xs.getD 0 0] := by
    unfold winSlice
    have h1w : 1 - w = 0 := by omega
    rw [h1w, List.drop_zero]
    cases xs with
    | nil => simp at h0
    | cons a l => simp [List.getD_eq_getElem?_getD]
  rw [hs]
  unfold listMean
  norm_num

/-- C10: for every source column and window width w ≥ 2 (the configured
sizes are 7 and 14), the rolling standard deviation is missing at the first
row even though min_periods is one, because the ddof 1 deviation of a single
observation is undefined; and at every row i ≥ 1 its square equals the
sample variance of the source cells over rows max(0, i-w+1) .. i, a range
that then contains at least two rows. -/
theorem rolling_std_feature (xs : List Rat) (w i : Nat) (hw : 2 ≤ w) (hi : i < xs.length) :
    (rollingStdSqO w (xs.map some)).getD 0 none = none ∧
    (1 ≤ i → (rollingStdSqO w (xs.map some)).getD i none
        = some (sampleVar (winSlice w i xs))) := by
  have h0 : 0 < xs.length := by omega
  constructor
  · rw [List.getD_eq_getElem?_getD, rollingStdSqO,
      rollingApply_getElem? aggVarS w (xs.map some) 0 (by rw [List.length_map]; omega)]
    rw [tailWin_map_some w 0 xs h0]
    rw [aggVarS, filterMap_id_map_some]
    rw [if_neg (by rw [winSlice_length w 0 xs h0]; omega)]
    rfl
  · intro h1
    rw [List.getD_eq_getElem?_getD, rollingStdSqO,
      rollingApply_getElem? aggVarS w (xs.map some) i (by rw [List.length_map]; omega)]
    rw [tailWin_map_some w i xs hi]
    rw [aggVarS, filterMap_id_map_some]
    rw [if_pos (by rw [winSlice_length w i xs hi]; omega)]
    rfl

/-- Witness for C3: lag 2 on a concrete three-row column. -/
theorem lag_feature_values_witness :
    (2 < ([10, 20, 30] : List Rat).length) ∧
      (shiftO 2 (([10, 20, 30] : List Rat).map some)).getD 2 none
        = some (([10, 20, 30] : List Rat).getD 0 0) :=
  ⟨by decide, (lag_feature_values [10, 20, 30] 2 2 (by decide)).1 (by decide)⟩

/-- Witness for C4: window 3 on a concrete two-row column at row 1. -/
theorem rolling_mean_feature_witness :
    ((1 : Nat) ≤ 3 ∧ 1 < ([1, 3] : List Rat).length) ∧
      (rollingMeanO 3 (([1, 3] : List Rat).map some)).getD 1 none
        = some (listMean (winSlice 3 1 [1, 3])) :=
  ⟨⟨by decide, by decide⟩, (rolling_mean_feature [1, 3] 3 1 (by decide) (by decide)).1⟩

/-- Witness for C10: window 7 on a concrete three-row column at row 2. -/
theorem rolling_std_feature_witness :
    ((2 : Nat) ≤ 7 ∧ 2 < ([1, 3, 7] : List Rat).length ∧ (1 : Nat) ≤ 2) ∧
      (rollingStdSqO 7 (([1, 3, 7] : List Rat).map some)).getD 0 none = none ∧
      (rollingStdSqO 7 (([1, 3, 7] : List Rat).map some)).getD 2 none
        = some (sampleVar (winSlice 7 2 [1, 3, 7])) :=
  ⟨⟨by decide, by decide, by decide⟩,
    (rolling_std_feature [1, 3, 7] 7 2 (by decide) (by decide)).1,
    (rolling_std_feature [1, 3, 7] 7 2 (by decide) (by decide)).2 (by decide)⟩

/-! ## Training split and reliability binning, from train_model in
src/models/model.py -/

/-- The three reliability categories used by the classification target. -/
inductive Cat where
  | Low
  | Medium
  | High
deriving DecidableEq

/-- pd.cut with bins [0, low, high, 1.0] and labels Low, Medium, High: the
intervals are right-closed and left-open, so a value equal to 0 falls in no
bin and receives no category (NaN), and values outside (0, 1] likewise get
none.  pd.cut accepts these bins only when 0 < low < high < 1. -/
def pdCut3 (low high r : Rat) : Option Cat :=
  if 0 < r ∧ r ≤ low then some Cat.Low
  else if low < r ∧ r ≤ high then some Cat.Medium
  else if high < r ∧ r ≤ 1 then some Cat.High
  else none

/-- valid_mask of train_model: the non-NaN targets of the pct column, kept
in their original order. -/
def validTargets (pct : List (Option Rat)) : List Rat := pct.filterMap id

/-- split_idx = int(len * 0.8): the float product truncates to 4n/5 in
natural division for every realistic row count. -/
def splitIdx80 (n : Nat) : Nat := n * 4 / 5

/-- y_train of train_model: the positional first 80 percent of the valid
targets. -/
def y_train (pct : List (Option Rat)) : List Rat :=
  (validTargets pct).take (splitIdx80 (validTargets pct).length)

/-- y_test of train_model: the trailing 20 percent of the valid targets. -/
def y_test (pct : List (Option Rat)) : List Rat :=
  (validTargets pct).drop (splitIdx80 (validTargets pct).length)

/-- train_mean = np.mean(y_train). -/
def train_mean (pct : List (Option Rat)) : Rat := listMean (y_train pct)

/-- Population (ddof 0) variance, the square of np.std. -/
def popVar (l : List Rat) : Rat :=
  ((l.map (fun v => (v - listMean l) ^ 2)).sum) / (l.length : Rat)

/-- y_train_cat of train_model: pd.cut of the training targets with the
bins [0, train_mean - s, train_mean + s, 1.0], where s stands for
np.std(y_train); the theorems characterise s by s * s = popVar (y_train). -/
def y_train_cat (pct : List (Option Rat)) (s : Rat) : List (Option Cat) :=
  (y_train pct).map (pdCut3 (train_mean pct - s) (train_mean pct + s))

/-- y_test_cat of train_model: pd.cut of the evaluation targets with the
same frozen bins computed from the training partition. -/
def y_test_cat (pct : List (Option Rat)) (s : Rat) : List (Option Cat) :=
  (y_test pct).map (pdCut3 (train_mean pct - s) (train_mean pct + s))

/-- Concrete pipeline input for the C1 counterexample: five valid targets,
whose training partition is the first four with mean 1/2 and population
deviation 1/4, and whose evaluation partition is the single target 0. -/
def pctCex : List (Option Rat) :=
  [some (1/4), some (1/4), some (3/4), some (3/4), some 0]

/-- C1 counterexample: in the run on pctCex the boundaries are
low = 1/4 and high = 3/4, the evaluation target 0 lies in [0, 1] and
satisfies 0 ≤ low, yet pd.cut assigns it no category at all (NaN) rather
than Low, because the lowest bin (0, low] is open at 0.  The claim that
every r ≤ low in [0, 1] is categorised Low is therefore false. -/
theorem binning_zero_target_uncategorised :
    train_mean pctCex = 1/2 ∧
    (1/4 : Rat) * (1/4) = popVar (y_train pctCex) ∧
    y_test pctCex = [0] ∧
    (0 : Rat) ≤ train_mean pctCex - 1/4 ∧
    y_test_cat pctCex (1/4) = [none] ∧
    y_test_cat pctCex (1/4) ≠ [some Cat.Low] := by
  have hv : validTargets pctCex = [1/4, 1/4, 3/4, 3/4, 0] := by
    simp [pctCex, validTargets]
  have hyt : y_train pctCex = [1/4, 1/4, 3/4, 3/4] := by
    rw [y_train, hv]; norm_num [splitIdx80]
  have hye : y_test pctCex = [0] := by
    rw [y_test, hv]; norm_num [splitIdx80]
  have hm : train_mean pctCex = 1/2 := by
    rw [train_mean, hyt]; norm_num [listMean]
  refine ⟨hm, ?_, hye, by rw [hm]; norm_num, ?_, ?_⟩
  · rw [hyt]; norm_num [popVar, listMean]
  · rw [y_test_cat, hye, hm]; norm_num [pdCut3]
  · rw [y_test_cat, hye, hm]
    norm_num [pdCut3]
    exact fun hcon => Option.noConfusion hcon

/-- C1 (amended): the category boundaries are low = mean - s and
high = mean + s where the mean and the deviation s are computed over the
training partition of the valid targets only, once per run; the evaluation
partition is categorised with those same frozen boundaries; and for every
reliability r in [0, 1] the assigned category is Low iff 0 < r ≤ low
(r = 0 receives no category), Medium iff low < r ≤ high, and High iff
r > high. -/
theorem reliability_binning (pct : List (Option Rat)) (s : Rat)
    (hs0 : 0 ≤ s) (hvar : s * s = popVar (y_train pct))
    (hlow : 0 < train_mean pct - s) (hhigh : train_mean pct + s < 1) :
    y_train_cat pct s
        = (y_train pct).map (pdCut3 (train_mean pct - s) (train_mean pct + s)) ∧
    y_test_cat pct s
        = (y_test pct).map (pdCut3 (train_mean pct - s) (train_mean pct + s)) ∧
    (∀ q : List (Option Rat), y_train q = y_train pct →
        train_mean q - s = train_mean pct - s ∧ train_mean q + s = train_mean pct + s) ∧
    (∀ r : Rat, 0 ≤ r → r ≤ 1 →
      (pdCut3 (train_mean pct - s) (train_mean pct + s) r = some Cat.Low
          ↔ 0 < r ∧ r ≤ train_mean pct - s) ∧
      (pdCut3 (train_mean pct - s) (train_mean pct + s) r = some Cat.Medium
          ↔ train_mean pct - s < r ∧ r ≤ train_mean pct + s) ∧
      (pdCut3 (train_mean pct - s) (train_mean pct + s) r = some Cat.High
          ↔ train_mean pct + s < r)) := by
  refine ⟨rfl, rfl, ?_, ?_⟩
  · intro q hq
    unfold train_mean
    rw [hq]
    exact ⟨rfl, rfl⟩
  · intro r hr0 hr1
    have hle : train_mean pct - s ≤ train_mean pct + s := by linarith
    refine ⟨?_, ?_, ?_⟩
    · constructor
      · intro h
        unfold pdCut3 at h
        split_ifs at h with h1 h2 h3
        · exact h1
        · simp at h
        · simp at h
      · intro h
        unfold pdCut3
        rw [if_pos h]
    · constructor
      · intro h
        unfold pdCut3 at h
        split_ifs at h with h1 h2 h3
        · simp at h
        · exact h2
        · simp at h
      · intro h
        have hn1 : ¬(0 < r ∧ r ≤ train_mean pct - s) := by
          rintro ⟨_, hc⟩
          linarith [h.1]
        unfold pdCut3
        rw [if_neg hn1, if_pos h]
    · constructor
      · intro h
        unfold pdCut3 at h
        split_ifs at h with h1 h2 h3
        · simp at h
        · simp at h
        · exact h3.1
      · intro h
        have hn1 : ¬(0 < r ∧ r ≤ train_mean pct - s) := by
          rintro ⟨_, hc⟩
          linarith
        have hn2 : ¬(train_mean pct - s < r ∧ r ≤ train_mean pct + s) := by
          rintro ⟨_, hc⟩
          linarith
        unfold pdCut3
        rw [if_neg hn1, if_neg hn2, if_pos ⟨h, hr1⟩]

/-- Concrete pipeline input for the C1 witness: five valid targets whose
training partition again has mean 1/2 and deviation 1/4, and whose
evaluation target 1/2 falls in the Medium bin. -/
def pctWit : List (Option Rat) :=
  [some (1/4), some (1/4), some (3/4), some (3/4), some (1/2)]

/-- Witness for C1 (amended): the theorem applied to the concrete run on
pctWit with s = 1/4. -/
theorem reliability_binning_witness :
    ((0 : Rat) ≤ 1/4 ∧ (1/4 : Rat) * (1/4) = popVar (y_train pctWit) ∧
      (0 : Rat) < train_mean pctWit - 1/4 ∧ train_mean pctWit + 1/4 < 1) ∧
    y_test_cat pctWit (1/4)
      = (y_test pctWit).map (pdCut3 (train_mean pctWit - 1/4) (train_mean pctWit + 1/4)) := by
  have hv : validTargets pctWit = [1/4, 1/4, 3/4, 3/4, 1/2] := by
    simp [pctWit, validTargets]
  have hyt : y_train pctWit = [1/4, 1/4, 3/4, 3/4] := by
    rw [y_train, hv]; norm_num [splitIdx80]
  have hm : train_mean pctWit = 1/2 := by
    rw [train_mean, hyt]; norm_num [listMean]
  have h1 : (0 : Rat) ≤ 1/4 := by norm_num
  have h2 : (1/4 : Rat) * (1/4) = popVar (y_train pctWit) := by
    rw [hyt]; norm_num [popVar, listMean]
  have h3 : (0 : Rat) < train_mean pctWit - 1/4 := by rw [hm]; norm_num
  have h4 : train_mean pctWit + 1/4 < 1 := by rw [hm]; norm_num
  exact ⟨⟨h1, h2, h3, h4⟩, (reliability_binning pctWit (1/4) h1 h2 h3 h4).2.1⟩

/-- The per-row view of the split of train_model needed for the causality
statement: rows as (datetime, target) pairs in input order; valid_mask
keeps the rows whose target is not NaN, preserving order. -/
def validRows (rows : List (Rat × Option Rat)) : List (Rat × Rat) :=
  rows.filterMap (fun p => (p.2).map (fun v => (p.1, v)))

/-- The training partition of the split: the positional first 80 percent of
the valid rows, chronologically earliest under the date-sorted invariant. -/
def trainRows (rows : List (Rat × Option Rat)) : List (Rat × Rat) :=
  (validRows rows).take (splitIdx80 (validRows rows).length)

/-- The evaluation partition of the split: the trailing 20 percent. -/
def testRows (rows : List (Rat × Option Rat)) : List (Rat × Rat) :=
  (validRows rows).drop (splitIdx80 (validRows rows).length)

/-- C2: on a date-sorted, date-unique input with at least one valid-target
row, the positional 80/20 split is causal: every evaluation-partition date
is strictly greater than every training-partition date. -/
theorem split_causality (rows : List (Rat × Option Rat))
    (hsorted : rows.Pairwise (fun a b => a.1 < b.1))
    (hvalid : 0 < (validRows rows).length) :
    ∀ a ∈ trainRows rows, ∀ b ∈ testRows rows, a.1 < b.1 := by
  have hp : (validRows rows).Pairwise (fun a b => a.1 < b.1) := by
    rw [validRows, List.pairwise_filterMap]
    refine hsorted.imp ?_
    intro p q hpq x hx y hy
    rcases Option.map_eq_some'.mp hx with ⟨v, hv, hxv⟩
    rcases Option.map_eq_some'.mp hy with ⟨u, hu, hyu⟩
    rw [← hxv, ← hyu]
    exact hpq
  have hsplit := List.take_append_drop
    (splitIdx80 (validRows rows).length) (validRows rows)
  rw [← hsplit, List.pairwise_append] at hp
  exact hp.2.2

/-- Concrete model input for the C2 witness: three rows, the middle one
with a NaN target. -/
def rowsWit : List (Rat × Option Rat) := [(1, some (1/2)), (2, none), (3, some (2/3))]

/-- Witness for C2: on rowsWit the valid rows split into one training row
(date 1) and one evaluation row (date 3). -/
theorem split_causality_witness :
    (rowsWit.Pairwise (fun a b => a.1 < b.1) ∧ 0 < (validRows rowsWit).length) ∧
    ∀ a ∈ trainRows rowsWit, ∀ b ∈ testRows rowsWit, a.1 < b.1 := by
  have h1 : rowsWit.Pairwise (fun a b => a.1 < b.1) := by
    norm_num [rowsWit, List.pairwise_cons]
  have h2 : 0 < (validRows rowsWit).length := by
    simp [rowsWit, validRows, List.filterMap_cons]
  exact ⟨⟨h1, h2⟩, split_causality rowsWit h1 h2⟩

/-! ## DataFrame model: column-oriented tables with NaN-capable cells,
an explicit reference heap for the copy-on-entry discipline, and the
pandas operations used by feature_engineering.py and model.py. -/

/-- A DataFrame: ordered association list from column name to cell list. -/
abbrev DF := List (String × List (Option Rat))

/-- df[name] on a possibly missing column: KeyError is modelled as
Except.error carrying the missing name. -/
def colE (df : DF) (name : String) : Except String (List (Option Rat)) :=
  match List.lookup name df with
  | some c => Except.ok c
  | none => Except.error name

/-- df[name] for a column assigned earlier in the same function body, a
read that cannot fail; the default never surfaces. -/
def colD (df : DF) (name : String) : List (Option Rat) :=
  (List.lookup name df).getD []

/-- df[name] = c: replace the column in place when present (pandas keeps
its position), append it otherwise. -/
def setCol (df : DF) (name : String) (c : List (Option Rat)) : DF :=
  if (List.lookup name df).isSome then
    df.map (fun p => if p.1 = name then (name, c) else p)
  else df ++ [(name, c)]

/-- Cell order used by sort_values: NaN sorts last (na_position last). -/
def cellLe (a b : Option Rat) : Bool :=
  match a, b with
  | some x, some y => decide (x ≤ y)
  | some _, none => true
  | none, some _ => false
  | none, none => true

/-- Stable insertion of an element into a sorted list: the element goes
before the first entry it compares less-or-equal to. -/
def insertBy {α : Type} (le : α → α → Bool) (x : α) : List α → List α
  | [] => [x]
  | y :: ys => if le x y then x :: y :: ys else y :: insertBy le x ys

/-- Stable insertion sort: an earlier element ties before a later one. -/
def sortBy {α : Type} (le : α → α → Bool) : List α → List α
  | [] => []
  | x :: xs => insertBy le x (sortBy le xs)

/-- The stable permutation with which sort_values(datetime) reorders the
rows: indices paired with datetime cells, stably sorted by cell. -/
def sortPerm (df : DF) : List Nat :=
  let dcells := (List.lookup "datetime" df).getD []
  ((sortBy (fun a b => cellLe a.2 b.2)
    ((List.range dcells.length).map (fun i => (i, dcells.getD i none))))).map (fun p => p.1)

/-- df.sort_values(datetime).reset_index(drop=True): the stable permutation
sorting the datetime column is applied to every column. -/
def sortValues (df : DF) : DF :=
  df.map (fun p => (p.1, (sortPerm df).map (fun i => (p.2).getD i none)))

lemma lookup_map_replace (m n : String) (c : List (Option Rat)) :
    ∀ df : DF,
      List.lookup n (df.map (fun p => if p.1 = m then (m, c) else p))
        = if n = m then (List.lookup m df).map (fun _ => c) else List.lookup n df := by
  intro df
  induction df with
  | nil => by_cases h : n = m <;> simp [h]
  | cons hd t ih =>
      obtain ⟨a, b⟩ := hd
      by_cases ham : a = m
      · subst ham
        by_cases hnm : n = a
        · subst hnm
          simp [List.lookup_cons]
        · have h1 : (n == a) = false := beq_eq_false_iff_ne.mpr hnm
          simp [List.lookup_cons, h1, ih, hnm]
      · by_cases hnm : n = a
        · subst hnm
          have h2 : ¬ n = m := ham
          simp [List.lookup_cons, ham, h2]
        · have h1 : (n == a) = false := beq_eq_false_iff_ne.mpr hnm
          by_cases hnm2 : n = m
          · subst hnm2
            have h3 : (n == a) = false := h1
            simp [List.lookup_cons, ham, h1, h3, ih]
          · simp [List.lookup_cons, ham, h1, ih, hnm2]

lemma lookup_append_single (n m : String) (c : List (Option Rat)) :
    ∀ df : DF,
      List.lookup n (df ++ [(m, c)])
        = match List.lookup n df with
          | some b => some b
          | none => if n = m then some c else none := by
  intro df
  induction df with
  | nil =>
      by_cases h : n = m
      · subst h; simp [List.lookup_cons]
      · have : (n == m) = false := beq_eq_false_iff_ne.mpr h
        simp [List.lookup_cons, this, h]
  | cons hd t ih =>
      obtain ⟨a, b⟩ := hd
      by_cases hn : n = a
      · subst hn
        simp [List.lookup_cons]
      · have h1 : (n == a) = false := beq_eq_false_iff_ne.mpr hn
        simp [List.lookup_cons, h1, ih]

/-- The single law of column assignment: looking up n after setting m
returns the assigned cells when n = m and the previous binding otherwise. -/
lemma lookup_setCol (df : DF) (m n : String) (c : List (Option Rat)) :
    List.lookup n (setCol df m c) = if n = m then some c else List.lookup n df := by
  unfold setCol
  by_cases hp : (List.lookup m df).isSome
  · rw [if_pos hp, lookup_map_replace]
    by_cases hn : n = m
    · subst hn
      rcases Option.isSome_iff_exists.mp hp with ⟨b, hb⟩
      simp [hb]
    · simp [hn]
  · rw [if_neg hp, lookup_append_single]
    by_cases hn : n = m
    · subst hn
      have : List.lookup n df = none := Option.not_isSome_iff_eq_none.mp hp
      simp [this]
    · cases h : List.lookup n df <;> simp [hn]

/-- Column lookup commutes with a transformation applied to every cell
list while names are kept. -/
lemma lookup_map_snd (g : List (Option Rat) → List (Option Rat)) (n : String) :
    ∀ df : DF,
      List.lookup n (df.map (fun p => (p.1, g p.2))) = (List.lookup n df).map g := by
  intro df
  induction df with
  | nil => simp
  | cons hd t ih =>
      obtain ⟨a, b⟩ := hd
      by_cases hn : n = a
      · subst hn
        simp [List.lookup_cons]
      · have h1 : (n == a) = false := beq_eq_false_iff_ne.mpr hn
        simp [List.lookup_cons, h1, ih]

/-- sort_values permutes cells within each column and leaves the column
names and their association intact. -/
lemma lookup_sortValues (df : DF) (n : String) :
    List.lookup n (sortValues df)
      = (List.lookup n df).map (fun c => (sortPerm df).map (fun i => c.getD i none)) :=
  lookup_map_snd (fun c => (sortPerm df).map (fun i => c.getD i none)) n df

lemma hasCol_sortValues (df : DF) (n : String) :
    (List.lookup n (sortValues df)).isSome = (List.lookup n df).isSome := by
  rw [lookup_sortValues]
  cases List.lookup n df <;> rfl

lemma colE_ok_of_isSome {df : DF} {n : String} (h : (List.lookup n df).isSome) :
    ∃ c, colE df n = Except.ok c ∧ List.lookup n df = some c := by
  rcases Option.isSome_iff_exists.mp h with ⟨c, hc⟩
  exact ⟨c, by rw [colE, hc], hc⟩

lemma bind_okE {A B : Type} {x : Except String A} {k : A → Except String B} {a : A}
    (h : x = Except.ok a) : x >>= k = k a := by
  rw [h]; rfl

lemma bind_errE {A B : Type} {x : Except String A} {k : A → Except String B} {e : String}
    (h : x = Except.error e) : x >>= k = Except.error e := by
  rw [h]; rfl

/-- Success of an effectful fold that maintains an invariant: if every step
on a list element succeeds from any table satisfying P and preserves P,
the whole foldlM succeeds and preserves P. -/
lemma foldlM_invariant {α : Type} (P : DF → Prop) (step : DF → α → Except String DF) :
    ∀ l : List α, (∀ d a, a ∈ l → P d → ∃ d2, step d a = Except.ok d2 ∧ P d2) →
      ∀ d, P d → ∃ d2, List.foldlM step d l = Except.ok d2 ∧ P d2 := by
  intro l
  induction l with
  | nil =>
      intro _ d hd
      exact ⟨d, by rw [List.foldlM_nil]; rfl, hd⟩
  | cons a t ih =>
      intro hstep d hd
      obtain ⟨d1, hs1, hp1⟩ := hstep d a (List.mem_cons_self a t) hd
      obtain ⟨d2, hs2, hp2⟩ :=
        ih (fun d b hb hpd => hstep d b (List.mem_cons_of_mem a hb) hpd) d1 hp1
      refine ⟨d2, ?_, hp2⟩
      rw [List.foldlM_cons, bind_okE hs1]
      exact hs2

/-! ## Cell and column operations used by the feature functions -/

/-- NaN-propagating product of two cells. -/
def cellMul (a b : Option Rat) : Option Rat :=
  match a, b with
  | some x, some y => some (x * y)
  | _, _ => none

/-- Elementwise product of two columns. -/
def colMul (c1 c2 : List (Option Rat)) : List (Option Rat) :=
  List.zipWith cellMul c1 c2

/-- NaN-propagating sum of two cells. -/
def cellAdd (a b : Option Rat) : Option Rat :=
  match a, b with
  | some x, some y => some (x + y)
  | _, _ => none

/-- Elementwise sum of two columns. -/
def colAdd (c1 c2 : List (Option Rat)) : List (Option Rat) :=
  List.zipWith cellAdd c1 c2

/-- (series >= t).astype(int): a NaN cell compares False and yields 0. -/
def geInt (t : Rat) (a : Option Rat) : Option Rat :=
  match a with
  | some x => some (if t ≤ x then 1 else 0)
  | none => some 0

/-- (series == t).astype(int): a NaN cell compares False and yields 0. -/
def eqInt (t : Rat) (a : Option Rat) : Option Rat :=
  match a with
  | some x => some (if x = t then 1 else 0)
  | none => some 0

/-- series.isin(ts).astype(int): a NaN cell yields 0. -/
def isinInt (ts : List Rat) (a : Option Rat) : Option Rat :=
  match a with
  | some x => some (if x ∈ ts then 1 else 0)
  | none => some 0

/-- 1 - series, NaN-propagating. -/
def oneMinus (a : Option Rat) : Option Rat := a.map (fun x => 1 - x)

/-- The integer day-of-week stored in a rational cell, recovered for the
catalog lookup (cells of the day_of_week column are casts of naturals). -/
def qToNat (q : Rat) : Nat := q.num.toNat

/-- The row lambda of the class-schedule features: the window count for
the weekday when day_of_week < 5, else 0; on NaN the comparison is False,
so the result is also 0. -/
def windowCell (h1 m1 h2 m2 : Nat) (a : Option Rat) : Option Rat :=
  match a with
  | some q =>
      some (if q < 5 then ((get_class_starts_in_window h1 m1 h2 m2 (qToNat q) : Nat) : Rat)
            else 0)
  | none => some 0

/-- groupby(keys).transform(expanding mean): at row i, the mean of the
non-NaN values at rows j ≤ i whose key cell equals the key cell at i. -/
def expandingMeanBy (keys vals : List (Option Rat)) : List (Option Rat) :=
  (List.range vals.length).map (fun i =>
    let sel := (List.range (i + 1)).filter
      (fun j => decide (keys.getD j none = keys.getD i none))
    let vs := sel.filterMap (fun j => vals.getD j none)
    if 1 ≤ vs.length then some (listMean vs) else none)

/-- The masked expanding mean of the alert-pattern loops: the column is
initialised to 0.0 everywhere and the masked positions receive the
expanding mean of the masked subseries. -/
def maskedExpandingMean (mask : List Bool) (vals : List (Option Rat)) : List (Option Rat) :=
  (List.range vals.length).map (fun i =>
    if mask.getD i false then
      let vs := ((List.range (i + 1)).filter (fun j => mask.getD j false)).filterMap
        (fun j => vals.getD j none)
      if 1 ≤ vs.length then some (listMean vs) else none
    else some 0)

/-- total_alerts > 0 per row; a NaN cell compares False. -/
def alertFlags (ta : List (Option Rat)) : List Bool :=
  ta.map (fun c =>
    match c with
    | some q => decide (0 < q)
    | none => false)

/-- df.groupby((total_alerts > 0).cumsum()).cumcount(): at row i, the
number of earlier rows whose running count of positive-alert days equals
the one at i, that is the days elapsed since the last positive-alert day. -/
def days_since_lastO (ta : List (Option Rat)) : List (Option Rat) :=
  let fl := alertFlags ta
  let key := fun i => (fl.take (i + 1)).countP id
  (List.range ta.length).map (fun i =>
    some ((((List.range i).filter (fun j => key j == key i)).length : Nat) : Rat))

/-- (total_alerts > 0) grouped by runs of constant flag, cumulative sum
within the run: at row i, the number of flagged rows in the current run. -/
def alert_streakO (ta : List (Option Rat)) : List (Option Rat) :=
  let fl := alertFlags ta
  let runId := fun i => ((List.range i).filter
      (fun j => !(fl.getD (j + 1) false == fl.getD j false))).length
  (List.range ta.length).map (fun i =>
    some ((((List.range (i + 1)).filter
      (fun j => runId j == runId i && fl.getD j false)).length : Nat) : Rat))

/-! ## The feature functions of feature_engineering.py and model.py.
Each is the pure table transform of its python source: reads of input
columns are Except-valued (KeyError is Except.error), reads of columns
assigned earlier in the same body use the total colD, and the copy on
entry is modelled by the heap wrappers further below.  Calendar accessors
dt.dayofweek, dt.month and dt.day are uninterpreted parameters, and
pd.to_datetime is the identity on already-parsed cells. -/

/-- The pure column construction of add_temporal_features, applied to the
input table and its datetime column once the read has succeeded. -/
def add_temporal_body (dow mon dom : Rat → Rat) (df : DF) (dt : List (Option Rat)) : DF :=
  let df := setCol df "datetime" dt
  let df := setCol df "day_of_week" (dt.map (Option.map dow))
  let df := setCol df "month" (dt.map (Option.map mon))
  let df := setCol df "day_of_month" (dt.map (Option.map dom))
  let wd := colD df "day_of_week"
  let df := setCol df "is_weekend" (wd.map (geInt 5))
  let df := setCol df "is_monday" (wd.map (eqInt 0))
  let df := setCol df "is_friday" (wd.map (eqInt 4))
  let mo := colD df "month"
  let df := setCol df "is_fall_semester" (mo.map (isinInt [9, 10, 11, 12]))
  let df := setCol df "is_spring_semester" (mo.map (isinInt [1, 2, 3, 4, 5]))
  let df := setCol df "is_summer" (mo.map (isinInt [6, 7, 8]))
  df

/-- add_temporal_features from feature_engineering.py. -/
def add_temporal_features (dow mon dom : Rat → Rat) (df : DF) : Except String DF := do
  let dt ← colE df "datetime"
  pure (add_temporal_body dow mon dom df dt)

/-- The pure column construction of add_class_schedule_features. -/
def add_class_schedule_body (dow : Rat → Rat) (df : DF) (dt : List (Option Rat)) : DF :=
  let df := setCol df "datetime" dt
  let df := setCol df "day_of_week" (dt.map (Option.map dow))
  let wd := colD df "day_of_week"
  let df := setCol df "morning_class_starts" (wd.map (windowCell 8 0 10 0))
  let df := setCol df "midday_class_starts" (wd.map (windowCell 10 0 12 0))
  let df := setCol df "afternoon_class_starts" (wd.map (windowCell 12 0 15 0))
  let df := setCol df "evening_class_starts" (wd.map (windowCell 15 0 18 0))
  let df := setCol df "total_class_starts"
    (colAdd (colAdd (colAdd (colD df "morning_class_starts") (colD df "midday_class_starts"))
      (colD df "afternoon_class_starts")) (colD df "evening_class_starts"))
  let df := setCol df "is_mwf_day" (wd.map (isinInt [0, 2, 4]))
  let df := setCol df "is_tr_day" (wd.map (isinInt [1, 3]))
  df

/-- add_class_schedule_features from feature_engineering.py. -/
def add_class_schedule_features (dow : Rat → Rat) (df : DF) : Except String DF := do
  let dt ← colE df "datetime"
  pure (add_class_schedule_body dow df dt)

/-- The source columns of the lag features of add_time_series_features. -/
def tsSourceCols : List String :=
  ["precip", "snow", "total_alerts", "construction_alerts", "technical_problem_alerts"]

/-- The source columns of the rolling means of add_time_series_features. -/
def rollSourceCols : List String := ["precip", "snow", "total_alerts"]

/-- The source columns of the rolling deviations of
add_time_series_features. -/
def stdSourceCols : List String := ["precip", "snow"]

/-- One iteration of the lag loop of add_time_series_features: the lag-lag
shift of every source column, each read failing if the column is absent. -/
def lagColsStep (lag : Nat) (df : DF) : Except String DF :=
  tsSourceCols.foldlM (fun df name => do
    let c ← colE df name
    pure (setCol df (name ++ "_lag_" ++ toString lag ++ "d") (shiftO lag c))) df

/-- One iteration of the rolling-average loop of add_time_series_features. -/
def rollColsStep (w : Nat) (df : DF) : Except String DF :=
  rollSourceCols.foldlM (fun df name => do
    let c ← colE df name
    pure (setCol df (name ++ "_rolling_" ++ toString w ++ "d") (rollingMeanO w c))) df

/-- One iteration of the rolling-deviation loop of
add_time_series_features. -/
def stdColsStep (w : Nat) (df : DF) : Except String DF :=
  stdSourceCols.foldlM (fun df name => do
    let c ← colE df name
    pure (setCol df (name ++ "_std_" ++ toString w ++ "d") (rollingStdSqO w c))) df

/-- add_time_series_features from feature_engineering.py: sort by date,
then lag features over lag_days, rolling means over windows 3, 7, 14 and
rolling deviations over windows 7, 14; the caller passes lag_days
(its python default is [1, 2, 3, 7]). -/
def add_time_series_features (df : DF) (lag_days : List Nat) : Except String DF := do
  let dt ← colE df "datetime"
  let df := sortValues (setCol df "datetime" dt)
  let df ← lag_days.foldlM (fun df lag => lagColsStep lag df) df
  let df ← ([3, 7, 14] : List Nat).foldlM (fun df w => rollColsStep w df) df
  let df ← ([7, 14] : List Nat).foldlM (fun df w => stdColsStep w df) df
  pure df

/-- The pure column construction of add_alert_pattern_features on the
date-sorted table and its day_of_week, total_alerts and month columns. -/
def add_alert_pattern_body (df : DF) (wd ta mo : List (Option Rat)) : DF :=
  let df := (List.range 7).foldl (fun df day =>
    setCol df ("alert_pattern_dow_" ++ toString day)
      (maskedExpandingMean (wd.map (fun c => decide (c = some ((day : Nat) : Rat)))) ta)) df
  let df := (List.range 12).foldl (fun df m0 =>
    setCol df ("alert_pattern_month_" ++ toString (m0 + 1))
      (maskedExpandingMean (mo.map (fun c => decide (c = some ((m0 + 1 : Nat) : Rat)))) ta)) df
  let df := setCol df "days_since_last_alert" (days_since_lastO ta)
  let df := setCol df "alert_streak" (alert_streakO ta)
  df

/-- add_alert_pattern_features from feature_engineering.py: sort by date,
per-weekday and per-month masked expanding alert means, days since the
last alert and the alert streak.  The loop bodies read day_of_week, month
and total_alerts, columns never modified by the loops themselves, so the
reads are hoisted before the pure body. -/
def add_alert_pattern_features (df : DF) : Except String DF := do
  let dt ← colE df "datetime"
  let df := sortValues (setCol df "datetime" dt)
  let wd ← colE df "day_of_week"
  let ta ← colE df "total_alerts"
  let mo ← colE df "month"
  pure (add_alert_pattern_body df wd ta mo)

/-- The pure column construction of add_interaction_features from the
sixteen source columns it reads; the columns it assigns are all product
columns, none of which is ever read by the function itself. -/
def add_interaction_body (df : DF)
    (ta im ifr iw mc ac ca tc mra cea pr sn tpa mo ifa isp : List (Option Rat)) : DF :=
  let df := setCol df "alerts_x_monday" (colMul ta im)
  let df := setCol df "alerts_x_friday" (colMul ta ifr)
  let df := setCol df "alerts_x_weekend" (colMul ta iw)
  let df := setCol df "alerts_x_morning_classes" (colMul ta mc)
  let df := setCol df "alerts_x_afternoon_classes" (colMul ta ac)
  let df := setCol df "construction_x_class_starts" (colMul ca tc)
  let df := setCol df "morning_rush_alerts_x_classes" (colMul mra mc)
  let df := setCol df "class_end_alerts_x_classes" (colMul cea ac)
  let df := setCol df "precip_x_alerts" (colMul pr ta)
  let df := setCol df "snow_x_alerts" (colMul sn ta)
  let df := setCol df "snow_x_construction" (colMul sn ca)
  let df := setCol df "precip_x_technical_problems" (colMul pr tpa)
  let df := setCol df "snow_x_morning_classes" (colMul sn mc)
  let df := setCol df "precip_x_class_starts" (colMul pr tc)
  let df := setCol df "month_x_alerts" (colMul mo ta)
  let df := setCol df "fall_semester_x_alerts" (colMul ifa ta)
  let df := setCol df "spring_semester_x_alerts" (colMul isp ta)
  let df := setCol df "construction_x_monday_x_classes" (colMul (colMul ca im) mc)
  let df := setCol df "snow_x_monday_x_classes" (colMul (colMul sn im) mc)
  let df := setCol df "alerts_x_weekday_x_classes" (colMul (colMul ta (iw.map oneMinus)) tc)
  df

/-- add_interaction_features from feature_engineering.py: the fixed set of
pairwise and triple products.  Every read is of an input column, in source
order, and fails with the column name when it is absent; the assignments
only create product columns distinct from every read column, so the reads
are grouped before the pure body without changing any observable value or
the first failing read. -/
def add_interaction_features (df : DF) : Except String DF := do
  let ta ← colE df "total_alerts"
  let im ← colE df "is_monday"
  let ifr ← colE df "is_friday"
  let iw ← colE df "is_weekend"
  let mc ← colE df "morning_class_starts"
  let ac ← colE df "afternoon_class_starts"
  let ca ← colE df "construction_alerts"
  let tc ← colE df "total_class_starts"
  let mra ← colE df "morning_rush_alerts"
  let cea ← colE df "class_end_time_alerts"
  let pr ← colE df "precip"
  let sn ← colE df "snow"
  let tpa ← colE df "technical_problem_alerts"
  let mo ← colE df "month"
  let ifa ← colE df "is_fall_semester"
  let isp ← colE df "is_spring_semester"
  pure (add_interaction_body df ta im ifr iw mc ac ca tc mra cea pr sn tpa mo ifa isp)

/-- create_advanced_features from feature_engineering.py: the five feature
families chained in source order; the time-series stage receives the
python default lag list [1, 2, 3, 7]. -/
def create_advanced_features (dow mon dom : Rat → Rat) (df : DF) : Except String DF := do
  let df ← add_temporal_features dow mon dom df
  let df ← add_class_schedule_features dow df
  let df ← add_time_series_features df [1, 2, 3, 7]
  let df ← add_alert_pattern_features df
  let df ← add_interaction_features df
  pure df

/-- create_features from model.py: date sort, the reduced temporal and
schedule features, the fixed lag, rolling and deviation columns, the
monthly expanding alert mean, days since the last alert, and the two
products with total_class_starts. -/
def create_features (dow mon : Rat → Rat) (df : DF) : Except String DF := do
  let dt ← colE df "datetime"
  let df := setCol df "datetime" dt
  let df := sortValues df
  let dt2 := colD df "datetime"
  let df := setCol df "day_of_week" (dt2.map (Option.map dow))
  let df := setCol df "month" (dt2.map (Option.map mon))
  let wd := colD df "day_of_week"
  let df := setCol df "is_weekend" (wd.map (geInt 5))
  let df := setCol df "is_monday" (wd.map (eqInt 0))
  let df := setCol df "morning_class_starts" (wd.map (windowCell 8 0 10 0))
  let df := setCol df "afternoon_class_starts" (wd.map (windowCell 12 0 15 0))
  let df := setCol df "total_class_starts"
    (colAdd (colD df "morning_class_starts") (colD df "afternoon_class_starts"))
  let sn ← colE df "snow"
  let df := setCol df "snow_lag_1d" (shiftO 1 sn)
  let df := setCol df "snow_lag_7d" (shiftO 7 sn)
  let ta ← colE df "total_alerts"
  let df := setCol df "total_alerts_lag_1d" (shiftO 1 ta)
  let df := setCol df "total_alerts_lag_7d" (shiftO 7 ta)
  let df := setCol df "snow_rolling_3d" (rollingMeanO 3 sn)
  let df := setCol df "snow_rolling_7d" (rollingMeanO 7 sn)
  let df := setCol df "total_alerts_rolling_7d" (rollingMeanO 7 ta)
  let df := setCol df "total_alerts_rolling_14d" (rollingMeanO 14 ta)
  let df := setCol df "snow_std_7d" (rollingStdSqO 7 sn)
  let df := setCol df "alert_pattern_month" (expandingMeanBy (colD df "month") ta)
  let df := setCol df "days_since_last_alert" (days_since_lastO ta)
  let tc := colD df "total_class_starts"
  let df := setCol df "snow_x_classes" (colMul sn tc)
  let df := setCol df "alerts_x_classes" (colMul ta tc)
  pure df

/-! ## Reference heap: the df.copy() discipline of every feature function -/

/-- The reference heap: python DataFrame references are indices into a
list of table values. -/
abbrev Heap := List DF

/-- Dereference a table; out-of-range reads never arise in the sources. -/
def getRef (h : Heap) (r : Nat) : DF := h.getD r []

/-- The shared shape of every feature function at the reference level:
df = df.copy() on entry means all writes target a fresh table built from
the value of the argument table, allocated at a fresh reference; a raised
KeyError leaves the heap unchanged. -/
def heapApply (f : DF → Except String DF) (h : Heap) (r : Nat) :
    Except String (Heap × Nat) :=
  match f (getRef h r) with
  | Except.ok d => Except.ok (h ++ [d], h.length)
  | Except.error e => Except.error e

/-- add_temporal_features taking and returning a table reference. -/
def add_temporal_featuresH (dow mon dom : Rat → Rat) : Heap → Nat → Except String (Heap × Nat) :=
  heapApply (add_temporal_features dow mon dom)

/-- add_class_schedule_features taking and returning a table reference. -/
def add_class_schedule_featuresH (dow : Rat → Rat) : Heap → Nat → Except String (Heap × Nat) :=
  heapApply (add_class_schedule_features dow)

/-- add_time_series_features taking and returning a table reference. -/
def add_time_series_featuresH (lag_days : List Nat) : Heap → Nat → Except String (Heap × Nat) :=
  heapApply (fun df => add_time_series_features df lag_days)

/-- add_alert_pattern_features taking and returning a table reference. -/
def add_alert_pattern_featuresH : Heap → Nat → Except String (Heap × Nat) :=
  heapApply add_alert_pattern_features

/-- add_interaction_features taking and returning a table reference. -/
def add_interaction_featuresH : Heap → Nat → Except String (Heap × Nat) :=
  heapApply add_interaction_features

/-- create_features of model.py taking and returning a table reference. -/
def create_featuresH (dow mon : Rat → Rat) : Heap → Nat → Except String (Heap × Nat) :=
  heapApply (create_features dow mon)

lemma heapApply_frame (f : DF → Except String DF) (h : Heap) (r rr : Nat) (hh : Heap)
    (hrun : heapApply f h r = Except.ok (hh, rr)) :
    rr = h.length ∧ ∀ i, i < h.length → hh.getD i [] = h.getD i [] := by
  unfold heapApply at hrun
  cases hf : f (getRef h r) with
  | ok d =>
      rw [hf] at hrun
      injection hrun with h1
      injection h1 with h2 h3
      subst h2
      subst h3
      refine ⟨rfl, ?_⟩
      intro i hi
      rw [List.getD_eq_getElem?_getD, List.getD_eq_getElem?_getD, List.getElem?_append,
        if_pos hi]
  | error e =>
      rw [hf] at hrun
      cases hrun

/-- C9: every feature-construction function returns a freshly allocated
table and leaves the table at the argument reference, and every other
existing reference, unchanged: whichever of the six functions ran, the
returned reference is the fresh top of the heap and every previously
existing reference still holds its old table. -/
theorem feature_builders_fresh_copy (dow mon dom : Rat → Rat) (lag_days : List Nat)
    (h : Heap) (r rr : Nat) (hh : Heap)
    (hrun : add_temporal_featuresH dow mon dom h r = Except.ok (hh, rr)
      ∨ add_class_schedule_featuresH dow h r = Except.ok (hh, rr)
      ∨ add_time_series_featuresH lag_days h r = Except.ok (hh, rr)
      ∨ add_alert_pattern_featuresH h r = Except.ok (hh, rr)
      ∨ add_interaction_featuresH h r = Except.ok (hh, rr)
      ∨ create_featuresH dow mon h r = Except.ok (hh, rr)) :
    rr = h.length ∧ ∀ i, i < h.length → hh.getD i [] = h.getD i [] := by
  rcases hrun with h1 | h1 | h1 | h1 | h1 | h1 <;>
    exact heapApply_frame _ h r rr hh h1

/-- Constant calendar accessor used by the concrete witnesses. -/
def cal0 : Rat → Rat := fun _ => 0

/-- Concrete single-column table for the C9 witness. -/
def dfCal : DF := [("datetime", [some 0])]

/-- The heap produced by running add_temporal_features on the singleton
heap holding dfCal. -/
def heapWit9Out : Heap :=
  match add_temporal_featuresH cal0 cal0 cal0 [dfCal] 0 with
  | Except.ok (hh, _) => hh
  | Except.error _ => []

/-- Witness for C9: the concrete run of add_temporal_features on a
one-table heap, with the frame conclusion instantiated. -/
theorem feature_builders_fresh_copy_witness :
    add_temporal_featuresH cal0 cal0 cal0 [dfCal] 0 = Except.ok (heapWit9Out, 1) ∧
    (1 = ([dfCal] : Heap).length ∧
      ∀ i, i < ([dfCal] : Heap).length → heapWit9Out.getD i [] = ([dfCal] : Heap).getD i []) := by
  have hrun : add_temporal_featuresH cal0 cal0 cal0 [dfCal] 0 = Except.ok (heapWit9Out, 1) := by
    rfl
  exact ⟨hrun,
    feature_builders_fresh_copy cal0 cal0 cal0 [1] [dfCal] 0 1 heapWit9Out (Or.inl hrun)⟩

/-! ## C7: duplicate dates and the absence of any validation in
add_time_series_features -/

/-- Presence of every named column in a table. -/
def hasCols (df : DF) (ns : List String) : Prop :=
  ∀ n ∈ ns, (List.lookup n df).isSome = true

/-- The input columns read by add_time_series_features. -/
def tsRequiredCols : List String :=
  ["datetime", "precip", "snow", "total_alerts", "construction_alerts",
   "technical_problem_alerts"]

lemma hasCols_setCol (df : DF) (m : String) (c : List (Option Rat)) (ns : List String)
    (h : hasCols df ns) : hasCols (setCol df m c) ns := by
  intro n hn
  rw [lookup_setCol]
  by_cases hnm : n = m
  · rw [if_pos hnm]; rfl
  · rw [if_neg hnm]; exact h n hn

lemma hasCols_sortValues (df : DF) (ns : List String)
    (h : hasCols df ns) : hasCols (sortValues df) ns := by
  intro n hn
  rw [hasCol_sortValues]
  exact h n hn

lemma isOk_bind {A B : Type} {x : Except String A} {k : A → Except String B} {a : A}
    (h : x = Except.ok a) (hk : (k a).isOk = true) : (x >>= k).isOk = true := by
  rw [bind_okE h]
  exact hk

/-- Success and invariant preservation of one read-shift-assign fold over a
list of source columns, as performed by the three loops of
add_time_series_features. -/
lemma colsStep_ok (P : DF → Prop) (srcCols : List String) (nameF : String → String)
    (colF : String → List (Option Rat) → List (Option Rat))
    (hget : ∀ d, P d → ∀ nm ∈ srcCols, (List.lookup nm d).isSome = true)
    (hset : ∀ d nm c, nm ∈ srcCols → P d → P (setCol d (nameF nm) c)) :
    ∀ d, P d → ∃ d2,
      srcCols.foldlM (fun df name => do
        let c ← colE df name
        pure (setCol df (nameF name) (colF name c))) d = Except.ok d2 ∧ P d2 := by
  intro d hd
  refine foldlM_invariant P _ srcCols ?_ d hd
  intro d1 nm hnm hd1
  obtain ⟨c, hc, _⟩ := colE_ok_of_isSome (hget d1 hd1 nm hnm)
  refine ⟨setCol d1 (nameF nm) (colF nm c), ?_, hset d1 nm (colF nm c) hnm hd1⟩
  rw [bind_okE hc]
  rfl

lemma lagColsStep_inv (P : DF → Prop) (lag : Nat)
    (hget : ∀ d, P d → ∀ nm ∈ tsSourceCols, (List.lookup nm d).isSome = true)
    (hset : ∀ d nm c, nm ∈ tsSourceCols →
      P d → P (setCol d (nm ++ "_lag_" ++ toString lag ++ "d") c)) :
    ∀ d, P d → ∃ d2, lagColsStep lag d = Except.ok d2 ∧ P d2 := by
  intro d hd
  exact colsStep_ok P tsSourceCols (fun nm => nm ++ "_lag_" ++ toString lag ++ "d")
    (fun _ c => shiftO lag c) hget hset d hd

lemma rollColsStep_inv (P : DF → Prop) (w : Nat)
    (hget : ∀ d, P d → ∀ nm ∈ rollSourceCols, (List.lookup nm d).isSome = true)
    (hset : ∀ d nm c, nm ∈ rollSourceCols →
      P d → P (setCol d (nm ++ "_rolling_" ++ toString w ++ "d") c)) :
    ∀ d, P d → ∃ d2, rollColsStep w d = Except.ok d2 ∧ P d2 := by
  intro d hd
  exact colsStep_ok P rollSourceCols (fun nm => nm ++ "_rolling_" ++ toString w ++ "d")
    (fun _ c => rollingMeanO w c) hget hset d hd

lemma stdColsStep_inv (P : DF → Prop) (w : Nat)
    (hget : ∀ d, P d → ∀ nm ∈ stdSourceCols, (List.lookup nm d).isSome = true)
    (hset : ∀ d nm c, nm ∈ stdSourceCols →
      P d → P (setCol d (nm ++ "_std_" ++ toString w ++ "d") c)) :
    ∀ d, P d → ∃ d2, stdColsStep w d = Except.ok d2 ∧ P d2 := by
  intro d hd
  exact colsStep_ok P stdSourceCols (fun nm => nm ++ "_std_" ++ toString w ++ "d")
    (fun _ c => rollingStdSqO w c) hget hset d hd

/-- C7 (amended): add_time_series_features performs no duplicate-date
validation at all: whenever its six source columns are present it
completes successfully, for every input, duplicate dates included; it
sorts the rows and retains every one of them. -/
theorem builder_has_no_duplicate_check (df : DF) (lag_days : List Nat)
    (hreq : hasCols df tsRequiredCols) :
    (add_time_series_features df lag_days).isOk = true := by
  have hd : (List.lookup "datetime" df).isSome = true :=
    hreq "datetime" (by simp [tsRequiredCols])
  obtain ⟨dt, hdt, _⟩ := colE_ok_of_isSome hd
  have hP1 : hasCols (sortValues (setCol df "datetime" dt)) tsRequiredCols :=
    hasCols_sortValues _ _ (hasCols_setCol df "datetime" dt tsRequiredCols hreq)
  have hsub1 : ∀ nm ∈ tsSourceCols, nm ∈ tsRequiredCols := by decide
  have hsub2 : ∀ nm ∈ rollSourceCols, nm ∈ tsRequiredCols := by decide
  have hsub3 : ∀ nm ∈ stdSourceCols, nm ∈ tsRequiredCols := by decide
  obtain ⟨d2, hf1, hP2⟩ :=
    foldlM_invariant (fun d => hasCols d tsRequiredCols) (fun df lag => lagColsStep lag df)
      lag_days
      (fun d a _ hd2 =>
        lagColsStep_inv (fun d => hasCols d tsRequiredCols) a
          (fun d3 hd3 nm hnm => hd3 nm (hsub1 nm hnm))
          (fun d3 nm c _ hd3 => hasCols_setCol d3 _ c _ hd3) d hd2)
      (sortValues (setCol df "datetime" dt)) hP1
  obtain ⟨d3, hf2, hP3⟩ :=
    foldlM_invariant (fun d => hasCols d tsRequiredCols) (fun df w => rollColsStep w df)
      [3, 7, 14]
      (fun d a _ hd2 =>
        rollColsStep_inv (fun d => hasCols d tsRequiredCols) a
          (fun d4 hd4 nm hnm => hd4 nm (hsub2 nm hnm))
          (fun d4 nm c _ hd4 => hasCols_setCol d4 _ c _ hd4) d hd2)
      d2 hP2
  obtain ⟨d4, hf3, _⟩ :=
    foldlM_invariant (fun d => hasCols d tsRequiredCols) (fun df w => stdColsStep w df)
      [7, 14]
      (fun d a _ hd2 =>
        stdColsStep_inv (fun d => hasCols d tsRequiredCols) a
          (fun d5 hd5 nm hnm => hd5 nm (hsub3 nm hnm))
          (fun d5 nm c _ hd5 => hasCols_setCol d5 _ c _ hd5) d hd2)
      d3 hP3
  unfold add_time_series_features
  refine isOk_bind hdt ?_
  refine isOk_bind hf1 ?_
  refine isOk_bind hf2 ?_
  refine isOk_bind hf3 ?_
  rfl

/-- A concrete two-row input whose dates are identical, with every source
column present. -/
def dfDup : DF :=
  [("datetime", [some 5, some 5]),
   ("precip", [some 1, some 2]),
   ("snow", [some 0, some 0]),
   ("total_alerts", [some 3, some 0]),
   ("construction_alerts", [some 1, some 0]),
   ("technical_problem_alerts", [some 0, some 1])]

/-- The table produced by the time-series builder on dfDup. -/
def dfDupOut : DF :=
  match add_time_series_features dfDup [1, 2, 3, 7] with
  | Except.ok d => d
  | Except.error _ => []

/-- C7 counterexample: dfDup contains two records with the same date, yet
add_time_series_features raises no error: it returns a table normally,
with both duplicate-date rows retained.  The claimed fail-fast
duplicate-date validation does not exist in the code. -/
theorem duplicate_dates_processed_silently :
    ¬ ((List.lookup "datetime" dfDup).getD []).Nodup ∧
    add_time_series_features dfDup [1, 2, 3, 7] = Except.ok dfDupOut ∧
    List.lookup "datetime" dfDupOut = some [some 5, some 5] := by
  refine ⟨by decide, by rfl, by rfl⟩

/-- Witness for C7 (amended): the required columns of dfDup are present
and the builder completes on it. -/
theorem builder_has_no_duplicate_check_witness :
    hasCols dfDup tsRequiredCols ∧
    (add_time_series_features dfDup [1, 2, 3, 7]).isOk = true := by
  have h : hasCols dfDup tsRequiredCols := by
    intro n hn
    fin_cases hn <;> rfl
  exact ⟨h, builder_has_no_duplicate_check dfDup [1, 2, 3, 7] h⟩

/-! ## C8: a missing interaction source column aborts the whole build -/

/-- The columns that must survive every stage up to the failing read of
add_interaction_features: the six inputs, the temporal columns and the
schedule columns read later in the pipeline. -/
def keep8 : List String :=
  ["datetime", "precip", "snow", "total_alerts", "construction_alerts",
   "technical_problem_alerts", "day_of_week", "month", "is_monday", "is_friday",
   "is_weekend", "is_fall_semester", "is_spring_semester",
   "morning_class_starts", "afternoon_class_starts", "total_class_starts"]

/-- The C8 build invariant: the surviving columns are present and
morning_rush_alerts is absent. -/
def P8 (df : DF) : Prop :=
  hasCols df keep8 ∧ List.lookup "morning_rush_alerts" df = none

lemma P8_setCol (df : DF) (m : String) (c : List (Option Rat))
    (hm : ¬ ("morning_rush_alerts" = m)) (h : P8 df) : P8 (setCol df m c) :=
  ⟨hasCols_setCol df m c keep8 h.1, by rw [lookup_setCol, if_neg hm]; exact h.2⟩

lemma P8_sortValues (df : DF) (h : P8 df) : P8 (sortValues df) :=
  ⟨hasCols_sortValues df keep8 h.1, by rw [lookup_sortValues, h.2]; rfl⟩

lemma foldl_inv {β : Type} (P : DF → Prop) (step : DF → β → DF) :
    ∀ l : List β, (∀ d a, a ∈ l → P d → P (step d a)) →
      ∀ d, P d → P (l.foldl step d) := by
  intro l
  induction l with
  | nil => intro _ d hd; exact hd
  | cons a t ih =>
      intro hstep d hd
      exact ih (fun d b hb => hstep d b (List.mem_cons_of_mem a hb))
        (step d a) (hstep d a (List.mem_cons_self a t) hd)

lemma bind_ok_trans {A B : Type} {x : Except String A} {k : A → Except String B} {a : A}
    {y : Except String B} (h : x = Except.ok a) (hk : k a = y) : x >>= k = y := by
  rw [bind_okE h]
  exact hk

lemma lagName_ne (a : Nat) (ha : a ∈ ([1, 2, 3, 7] : List Nat)) (nm : String)
    (hnm : nm ∈ tsSourceCols) :
    ¬ ("morning_rush_alerts" = nm ++ "_lag_" ++ toString a ++ "d") := by
  fin_cases ha <;> fin_cases hnm <;> decide

lemma rollName_ne (a : Nat) (ha : a ∈ ([3, 7, 14] : List Nat)) (nm : String)
    (hnm : nm ∈ rollSourceCols) :
    ¬ ("morning_rush_alerts" = nm ++ "_rolling_" ++ toString a ++ "d") := by
  fin_cases ha <;> fin_cases hnm <;> decide

lemma stdName_ne (a : Nat) (ha : a ∈ ([7, 14] : List Nat)) (nm : String)
    (hnm : nm ∈ stdSourceCols) :
    ¬ ("morning_rush_alerts" = nm ++ "_std_" ++ toString a ++ "d") := by
  fin_cases ha <;> fin_cases hnm <;> decide

/-- C8 (amended): when the morning_rush_alerts column is absent from the
input (with the six base source columns present), the full feature build
create_advanced_features does not skip the interaction family: it aborts
the whole build with the key-lookup error naming the missing column.
There is no logged-warning degradation path in the code. -/
theorem missing_column_aborts_build (dow mon dom : Rat → Rat) (df : DF)
    (hbase : hasCols df tsRequiredCols)
    (habs : List.lookup "morning_rush_alerts" df = none) :
    create_advanced_features dow mon dom df = Except.error "morning_rush_alerts" := by
  have hb1 : (List.lookup "datetime" df).isSome = true :=
    hbase _ (by simp [tsRequiredCols])
  have hb2 : (List.lookup "precip" df).isSome = true :=
    hbase _ (by simp [tsRequiredCols])
  have hb3 : (List.lookup "snow" df).isSome = true :=
    hbase _ (by simp [tsRequiredCols])
  have hb4 : (List.lookup "total_alerts" df).isSome = true :=
    hbase _ (by simp [tsRequiredCols])
  have hb5 : (List.lookup "construction_alerts" df).isSome = true :=
    hbase _ (by simp [tsRequiredCols])
  have hb6 : (List.lookup "technical_problem_alerts" df).isSome = true :=
    hbase _ (by simp [tsRequiredCols])
  obtain ⟨dt, hdt, _⟩ := colE_ok_of_isSome hb1
  -- stage 1: temporal features
  have hT : add_temporal_features dow mon dom df
      = Except.ok (add_temporal_body dow mon dom df dt) := by
    unfold add_temporal_features
    rw [bind_okE hdt]
    rfl
  -- stage 2: class-schedule features, reading back the datetime column
  have hdt2 : colE (add_temporal_body dow mon dom df dt) "datetime" = Except.ok dt := by
    unfold colE
    rw [show List.lookup "datetime" (add_temporal_body dow mon dom df dt) = some dt from by
      simp [add_temporal_body, lookup_setCol]]
  have hS : add_class_schedule_features dow (add_temporal_body dow mon dom df dt)
      = Except.ok (add_class_schedule_body dow (add_temporal_body dow mon dom df dt) dt) := by
    unfold add_class_schedule_features
    rw [bind_okE hdt2]
    rfl
  -- the invariant holds after the first two stages
  have hQS : P8 (add_class_schedule_body dow (add_temporal_body dow mon dom df dt) dt) := by
    constructor
    · intro n hn
      fin_cases hn <;>
        simp [add_class_schedule_body, add_temporal_body, lookup_setCol,
          hb1, hb2, hb3, hb4, hb5, hb6]
    · simp [add_class_schedule_body, add_temporal_body, lookup_setCol, habs]
  -- stage 3: time-series features
  have hdtS : colE (add_class_schedule_body dow (add_temporal_body dow mon dom df dt) dt)
      "datetime" = Except.ok dt := by
    unfold colE
    rw [show List.lookup "datetime"
        (add_class_schedule_body dow (add_temporal_body dow mon dom df dt) dt) = some dt from by
      simp [add_class_schedule_body, add_temporal_body, lookup_setCol]]
  have hQ1 : P8 (sortValues (setCol
      (add_class_schedule_body dow (add_temporal_body dow mon dom df dt) dt) "datetime" dt)) :=
    P8_sortValues _ (P8_setCol _ _ _ (by decide) hQS)
  have hsub1 : ∀ nm ∈ tsSourceCols, nm ∈ keep8 := by decide
  have hsub2 : ∀ nm ∈ rollSourceCols, nm ∈ keep8 := by decide
  have hsub3 : ∀ nm ∈ stdSourceCols, nm ∈ keep8 := by decide
  obtain ⟨d2, hf1, hQ2⟩ :=
    foldlM_invariant P8 (fun df lag => lagColsStep lag df) [1, 2, 3, 7]
      (fun d a ha hd2 =>
        lagColsStep_inv P8 a
          (fun d3 hd3 nm hnm => hd3.1 nm (hsub1 nm hnm))
          (fun d3 nm c hnm hd3 => P8_setCol d3 _ c (lagName_ne a ha nm hnm) hd3) d hd2)
      _ hQ1
  obtain ⟨d3, hf2, hQ3⟩ :=
    foldlM_invariant P8 (fun df w => rollColsStep w df) [3, 7, 14]
      (fun d a ha hd2 =>
        rollColsStep_inv P8 a
          (fun d4 hd4 nm hnm => hd4.1 nm (hsub2 nm hnm))
          (fun d4 nm c hnm hd4 => P8_setCol d4 _ c (rollName_ne a ha nm hnm) hd4) d hd2)
      d2 hQ2
  obtain ⟨d4, hf3, hQ4⟩ :=
    foldlM_invariant P8 (fun df w => stdColsStep w df) [7, 14]
      (fun d a ha hd2 =>
        stdColsStep_inv P8 a
          (fun d5 hd5 nm hnm => hd5.1 nm (hsub3 nm hnm))
          (fun d5 nm c hnm hd5 => P8_setCol d5 _ c (stdName_ne a ha nm hnm) hd5) d hd2)
      d3 hQ3
  have hTS : add_time_series_features
      (add_class_schedule_body dow (add_temporal_body dow mon dom df dt) dt) [1, 2, 3, 7]
      = Except.ok d4 := by
    unfold add_time_series_features
    refine bind_ok_trans hdtS ?_
    refine bind_ok_trans hf1 ?_
    refine bind_ok_trans hf2 ?_
    refine bind_ok_trans hf3 ?_
    rfl
  -- stage 4: alert-pattern features on the time-series output
  obtain ⟨dt4, hdt4, _⟩ := colE_ok_of_isSome (hQ4.1 "datetime" (by simp [keep8]))
  have hQ5 : P8 (sortValues (setCol d4 "datetime" dt4)) :=
    P8_sortValues _ (P8_setCol _ _ _ (by decide) hQ4)
  obtain ⟨wd, hwd, _⟩ :=
    colE_ok_of_isSome (hQ5.1 "day_of_week" (by simp [keep8]))
  obtain ⟨ta4, hta4, _⟩ :=
    colE_ok_of_isSome (hQ5.1 "total_alerts" (by simp [keep8]))
  obtain ⟨mo4, hmo4, _⟩ :=
    colE_ok_of_isSome (hQ5.1 "month" (by simp [keep8]))
  have hA : add_alert_pattern_features d4
      = Except.ok (add_alert_pattern_body (sortValues (setCol d4 "datetime" dt4)) wd ta4 mo4) := by
    unfold add_alert_pattern_features
    refine bind_ok_trans hdt4 ?_
    refine bind_ok_trans hwd ?_
    refine bind_ok_trans hta4 ?_
    refine bind_ok_trans hmo4 ?_
    rfl
  have hQ6 : P8 (add_alert_pattern_body (sortValues (setCol d4 "datetime" dt4)) wd ta4 mo4) := by
    unfold add_alert_pattern_body
    refine P8_setCol _ _ _ (by decide) (P8_setCol _ _ _ (by decide) ?_)
    refine foldl_inv P8 _ (List.range 12) ?_ _ (foldl_inv P8 _ (List.range 7) ?_ _ hQ5)
    · intro d a ha hd
      refine P8_setCol _ _ _ ?_ hd
      simp only [List.mem_range] at ha
      interval_cases a <;> decide
    · intro d a ha hd
      refine P8_setCol _ _ _ ?_ hd
      simp only [List.mem_range] at ha
      interval_cases a <;> decide
  -- stage 5: the interaction stage fails at morning_rush_alerts
  obtain ⟨ta5, hta5, _⟩ := colE_ok_of_isSome (hQ6.1 "total_alerts" (by simp [keep8]))
  obtain ⟨im, him, _⟩ := colE_ok_of_isSome (hQ6.1 "is_monday" (by simp [keep8]))
  obtain ⟨ifr, hifr, _⟩ := colE_ok_of_isSome (hQ6.1 "is_friday" (by simp [keep8]))
  obtain ⟨iw, hiw, _⟩ := colE_ok_of_isSome (hQ6.1 "is_weekend" (by simp [keep8]))
  obtain ⟨mc, hmc, _⟩ :=
    colE_ok_of_isSome (hQ6.1 "morning_class_starts" (by simp [keep8]))
  obtain ⟨ac, hac, _⟩ :=
    colE_ok_of_isSome (hQ6.1 "afternoon_class_starts" (by simp [keep8]))
  obtain ⟨ca, hca, _⟩ :=
    colE_ok_of_isSome (hQ6.1 "construction_alerts" (by simp [keep8]))
  obtain ⟨tc, htc, _⟩ :=
    colE_ok_of_isSome (hQ6.1 "total_class_starts" (by simp [keep8]))
  have herr : colE (add_alert_pattern_body (sortValues (setCol d4 "datetime" dt4)) wd ta4 mo4)
      "morning_rush_alerts" = Except.error "morning_rush_alerts" := by
    unfold colE
    rw [hQ6.2]
  have hIerr : add_interaction_features
      (add_alert_pattern_body (sortValues (setCol d4 "datetime" dt4)) wd ta4 mo4)
      = Except.error "morning_rush_alerts" := by
    unfold add_interaction_features
    refine bind_ok_trans hta5 ?_
    refine bind_ok_trans him ?_
    refine bind_ok_trans hifr ?_
    refine bind_ok_trans hiw ?_
    refine bind_ok_trans hmc ?_
    refine bind_ok_trans hac ?_
    refine bind_ok_trans hca ?_
    refine bind_ok_trans htc ?_
    exact bind_errE herr
  unfold create_advanced_features
  refine bind_ok_trans hT ?_
  refine bind_ok_trans hS ?_
  refine bind_ok_trans hTS ?_
  refine bind_ok_trans hA ?_
  exact bind_errE hIerr

/-- A concrete one-row input with every base column but without
morning_rush_alerts. -/
def dfMiss : DF :=
  [("datetime", [some 3]), ("precip", [some 0]), ("snow", [some 1]),
   ("total_alerts", [some 2]), ("construction_alerts", [some 0]),
   ("technical_problem_alerts", [some 1]), ("class_end_time_alerts", [some 0])]

/-- C8 counterexample: on dfMiss, which lacks the morning_rush_alerts
column required by the interaction family, create_advanced_features does
not skip the family and complete; it raises a hard key-lookup failure for
the whole build. -/
theorem missing_column_hard_failure :
    (create_advanced_features cal0 cal0 cal0 dfMiss).isOk = false ∧
    create_advanced_features cal0 cal0 cal0 dfMiss = Except.error "morning_rush_alerts" := by
  refine ⟨by rfl, by rfl⟩

/-- Witness for C8 (amended): the theorem applied to the concrete table
dfMiss. -/
theorem missing_column_aborts_build_witness :
    (hasCols dfMiss tsRequiredCols ∧ List.lookup "morning_rush_alerts" dfMiss = none) ∧
    create_advanced_features cal0 cal0 cal0 dfMiss = Except.error "morning_rush_alerts" := by
  have h1 : hasCols dfMiss tsRequiredCols := by
    intro n hn
    fin_cases hn <;> rfl
  have h2 : List.lookup "morning_rush_alerts" dfMiss = none := by rfl
  exact ⟨⟨h1, h2⟩, missing_column_aborts_build cal0 cal0 cal0 dfMiss h1 h2⟩

end MBTA
